import Mathlib

/-!
Verification of the Seraph ID SDK claim/trust protocol.

This file is a shallow embedding, in Lean 4, of the parts of the
seraph-id-sdk TypeScript sources that the specification talks about:

* the RPC-result plumbing of the contract base class
  (`extractResult`, `getStringFromOperation`, `getStringArrayFromOperation`),
* the issuer contract client (`isValidClaim` and the operation names),
* the Root of Trust client (`trimedDID`, the parameter lists of
  `isTrusted` / `registerIssuer` / `deactivateIssuer` and their Test
  variants),
* the data model of `common.ts` (`ISchema`, `IClaim`, `IResult`, the
  operation enums),
* and, for the parts of the repository that are not among the given
  sources (the claim canonicalizer/hasher, the schema validator, the
  lifecycle validator and the signature engine), models written from the
  specification, each marked `Modelled from the spec:`.

JavaScript peculiarities that matter to the theorems are modelled
explicitly: `null`/`undefined` become `Option`, and an access to a
property of `undefined` (a TypeError) becomes a dedicated error outcome.
-/

namespace SeraphID

/-- A JSON value sitting in the `value` field of an execution-stack item of
an RPC invocation result.  Arrays hold stack items, i.e. (type, value)
pairs.  `vUndef` models the JavaScript `undefined` value. -/
inductive StackValue where
  | vStr : String → StackValue
  | vBool : Bool → StackValue
  | vInt : Int → StackValue
  | vArr : List (String × StackValue) → StackValue
  | vUndef : StackValue
deriving Repr

/-- A stack item of an invocation result: its `type` tag and its `value`. -/
abbrev StackItem := String × StackValue

/-- The shape of `rpc.InvokeResult` as used by the SDK: an optional
execution stack (absent or `null` becomes `none`) and an optional
`exception` string (`null` becomes `none`). -/
structure InvokeResult where
  stack : Option (List StackItem)
  exception : Option String
deriving Repr

/-- The `IResult` interface of `common.ts`: `success: boolean`,
`error?: string`, `result?: any`.  An absent (`undefined`) field is
`none`. -/
structure IResult where
  success : Bool
  error : Option String
  result : Option StackItem
deriving Repr

/-- Outcome of running one of the SDK operations: a normal return value,
a thrown `SeraphIDError` (carrying the optional message and the raw
invocation result, exactly the two constructor arguments of the
`SeraphIDError` class in `common.ts`), or an untyped JavaScript runtime
error such as the TypeError raised by reading a property of
`undefined`. -/
inductive Outcome (α : Type) where
  | ok : α → Outcome α
  | seraphError : Option String → InvokeResult → Outcome α
  | jsError : Outcome α
deriving Repr

/-- Stand-in for the external neon-core call
`u.HexString.fromBase64(x).toString()` used by `extractResult`.  The
library is outside this repository; the theorems below never depend on
the concrete value, only on where the SDK applies it, so any injective
marker suffices. -/
def hexFromBase64 (s : String) : String := "hex:" ++ s

/-- One iteration of the decoding loop of `extractResult` over the
elements of an Array-typed stack item: a ByteString element with a string
value gets its value base64-decoded, every other element is unchanged
(for a non-string value the JavaScript assignment would not produce a
string either; the loop leaves it semantically unchanged). -/
def decodeArrayElem (p : StackItem) : StackItem :=
  if p.1 = "ByteString" then
    match p.2 with
    | StackValue.vStr s => (p.1, StackValue.vStr (hexFromBase64 s))
    | v => (p.1, v)
  else p

/-- Embedding of `SeraphIDContractBase.extractResult` (contract-base.ts).
`Except.error ()` models the JavaScript TypeError thrown when the stack
is an empty array: `const returnObject = res.stack[0]` yields `undefined`
and the subsequent `returnObject.type` access throws.  For a `null` or
absent stack the function returns `success: false` with
`error = res.exception === null ? undefined : res.exception`.  For a
non-empty stack it returns `success: true`, `error = "no error"`, and the
first stack item with ByteString values base64-decoded (inside an Array
item element-wise, on a ByteString item directly). -/
def extractResult (res : InvokeResult) : Except Unit IResult :=
  match res.stack with
  | some [] => Except.error ()
  | some (returnObject :: _) =>
    let transformed : StackItem :=
      if returnObject.1 = "Array" then
        match returnObject.2 with
        | StackValue.vArr l => (returnObject.1, StackValue.vArr (l.map decodeArrayElem))
        | v => (returnObject.1, v)
      else if returnObject.1 = "ByteString" then
        match returnObject.2 with
        | StackValue.vStr s => (returnObject.1, StackValue.vStr (hexFromBase64 s))
        | v => (returnObject.1, v)
      else returnObject
    Except.ok { success := true, error := some "no error", result := some transformed }
  | none => Except.ok { success := false, error := res.exception, result := none }

/-- Stand-in for the external neon-js `rpc.StringParser` applied to a
stack item; the theorems only depend on where the SDK calls it. -/
def stringParser (item : StackItem) : String :=
  match item.2 with
  | StackValue.vStr s => s
  | _ => ""

/-- Stand-in for the external neon-js `rpc.IntegerParser` applied to a
stack item; the theorems only depend on where the SDK calls it. -/
def integerParser (item : StackItem) : Int :=
  match item.2 with
  | StackValue.vInt n => n
  | _ => 0

/-- Embedding of `SeraphIDContractBase.getStringFromOperation` applied to
the invocation response `res`: extract the result; on success parse the
stack item as a string, otherwise throw
`SeraphIDError(seraphResult.error, res)`. -/
def getStringFromOperation (res : InvokeResult) : Outcome String :=
  match extractResult res with
  | Except.error _ => Outcome.jsError
  | Except.ok sr =>
    if sr.success then
      match sr.result with
      | some item => Outcome.ok (stringParser item)
      | none => Outcome.jsError
    else Outcome.seraphError sr.error res

/-- Embedding of `SeraphIDContractBase.getStringArrayFromOperation`
applied to the invocation response `res`.  The source reads
`const length = seraphResult.result.value.length` BEFORE the
`if (seraphResult.success)` check; when `success` is `false` the
`result` field is `undefined`, so that line throws a TypeError
(`Outcome.jsError`) and the `SeraphIDError` branch below it is never
reached.  On success: for an array value the loop pushes each element's
`value`; for a string value, indexing yields one-character strings whose
`value` property is `undefined`; for any other value `length` is
`undefined` and the loop body never runs. -/
def getStringArrayFromOperation (res : InvokeResult) : Outcome (List StackValue) :=
  match extractResult res with
  | Except.error _ => Outcome.jsError
  | Except.ok sr =>
    match sr.result with
    | none => Outcome.jsError
    | some item =>
      if sr.success then
        match item.2 with
        | StackValue.vArr l => Outcome.ok (l.map (fun p => p.2))
        | StackValue.vStr s => Outcome.ok (List.replicate s.length StackValue.vUndef)
        | _ => Outcome.ok []
      else Outcome.seraphError sr.error res

/-- Embedding of `SeraphIDIssuerContract.isValidClaim` applied to the
invocation response `res`.  When `res.stack` is non-null with exactly one
element the raw `res.stack[0].value` is returned verbatim; otherwise the
result goes through `extractResult`, a failed extraction throws
`SeraphIDError(seraphResult.error, res)`, and a successful one is parsed
as an integer and compared with zero. -/
def isValidClaim (res : InvokeResult) : Outcome StackValue :=
  match res.stack with
  | some [item] => Outcome.ok item.2
  | _ =>
    match extractResult res with
    | Except.error _ => Outcome.jsError
    | Except.ok sr =>
      if sr.success then
        match sr.result with
        | some item => Outcome.ok (StackValue.vBool (integerParser item != 0))
        | none => Outcome.jsError
      else Outcome.seraphError sr.error res

/-- The `IssuerOperation` enum of `common.ts`, member for member. -/
inductive IssuerOperation where
  | Name
  | GetSchemaDetails
  | RegisterSchema
  | InjectClaim
  | RevokeClaim
  | IsValidClaim
  | GetAdminsList
  | AddAdmin
  | RemoveAdmin
deriving Repr, DecidableEq

/-- The string value of each `IssuerOperation` member, bit for bit as in
`common.ts`. -/
def issuerOperationValue : IssuerOperation → String
  | IssuerOperation.Name => "name"
  | IssuerOperation.GetSchemaDetails => "getSchemaDetails"
  | IssuerOperation.RegisterSchema => "registerSchema"
  | IssuerOperation.InjectClaim => "injectClaim"
  | IssuerOperation.RevokeClaim => "revokeClaim"
  | IssuerOperation.IsValidClaim => "isValidClaim"
  | IssuerOperation.GetAdminsList => "getAdminList"
  | IssuerOperation.AddAdmin => "addAdmin"
  | IssuerOperation.RemoveAdmin => "removeAdmin"

/-- The `RootOfTrustOperation` enum of `common.ts`, member for member. -/
inductive RootOfTrustOperation where
  | Name
  | IsTrusted
  | RegisterIssuer
  | DeactivateIssuer
deriving Repr, DecidableEq

/-- The string value of each `RootOfTrustOperation` member, bit for bit
as in `common.ts`. -/
def rootOfTrustOperationValue : RootOfTrustOperation → String
  | RootOfTrustOperation.Name => "name"
  | RootOfTrustOperation.IsTrusted => "isTrusted"
  | RootOfTrustOperation.RegisterIssuer => "registerIssuer"
  | RootOfTrustOperation.DeactivateIssuer => "deactivateIssuer"

/-- Member names of the `IssuerOperation` enum as defined in
`common.ts`. -/
def definedIssuerOperationMembers : List String :=
  ["Name", "GetSchemaDetails", "RegisterSchema", "InjectClaim",
   "RevokeClaim", "IsValidClaim", "GetAdminsList", "AddAdmin", "RemoveAdmin"]

/-- Member names of `IssuerOperation` referenced at the call sites of the
issuer contract client (`getIssuerName`, `getAdminList`, `addAdmin`,
`removeAdmin`, `getSchemaDetails`, `isValidClaim`, `registerSchema`,
`injectClaim`, `revokeClaim`, the Test variants, `getIssuerPublicKeys`,
`InitRecovery`, `ResetRecovery`, `AddKeyByRecovery`,
`RemoveKeyByRecovery`). -/
def referencedIssuerOperationMembers : List String :=
  ["Name", "GetAdminsList", "AddAdmin", "RemoveAdmin", "GetSchemaDetails",
   "IsValidClaim", "RegisterSchema", "InjectClaim", "RevokeClaim",
   "GetPublicKeys", "SetRecovery", "AddKeyByRecovery", "RemoveKeyByRecovery"]

/-- Member names of `RootOfTrustOperation` referenced at the call sites
of the Root of Trust client (`getName`, `isTrusted`, `registerIssuer`,
`deactivateIssuer` and the Test variants). -/
def referencedRootOfTrustOperationMembers : List String :=
  ["Name", "IsTrusted", "RegisterIssuer", "DeactivateIssuer"]

/-- Member names of the `RootOfTrustOperation` enum as defined in
`common.ts`. -/
def definedRootOfTrustOperationMembers : List String :=
  ["Name", "IsTrusted", "RegisterIssuer", "DeactivateIssuer"]

/-- Embedding of `SeraphIDRootOfTrust.trimedDID` (rot.ts):
`issuerDID.substring(9)`, i.e. the DID with its first nine UTF-16 code
units removed (all characters involved are ASCII, so code units coincide
with characters). -/
def trimedDID (issuerDID : String) : String := issuerDID.drop 9

/-- The contract-parameter list built by `SeraphIDRootOfTrust.isTrusted`:
the trimmed issuer DID followed by the schema name, both as string
parameters. -/
def isTrustedParams (issuerDID schemaName : String) : List String :=
  [trimedDID issuerDID, schemaName]

/-- The contract-parameter list built by
`SeraphIDRootOfTrust.registerIssuer`. -/
def registerIssuerParams (issuerDID schemaName : String) : List String :=
  [trimedDID issuerDID, schemaName]

/-- The contract-parameter list built by
`SeraphIDRootOfTrust.deactivateIssuer`. -/
def deactivateIssuerParams (issuerDID schemaName : String) : List String :=
  [trimedDID issuerDID, schemaName]

/-- The contract-parameter list built by
`SeraphIDRootOfTrust.registerIssuerTest`. -/
def registerIssuerTestParams (issuerDID schemaName : String) : List String :=
  [trimedDID issuerDID, schemaName]

/-- The contract-parameter list built by
`SeraphIDRootOfTrust.deactivateIssuerTest`. -/
def deactivateIssuerTestParams (issuerDID schemaName : String) : List String :=
  [trimedDID issuerDID, schemaName]

/-- The `ISchema` interface of `common.ts`: attribute names, unique
schema name, revocability flag, optional transaction reference. -/
structure Schema where
  attributes : List String
  name : String
  revokable : Bool
  tx : Option String := none
deriving Repr, DecidableEq

/-- The `IClaim` interface of `common.ts`.  The untyped attribute map
`{ [key: string]: any }` is embedded as an association list of
(name, serialized JSON-primitive value) pairs; the optional dates as
optional integer timestamps. -/
structure Claim where
  id : String
  issuerDID : Option String := none
  ownerDID : String
  attributes : List (String × String)
  schema : String
  signature : Option String := none
  tx : Option String := none
  validFrom : Option Int := none
  validTo : Option Int := none
deriving Repr, DecidableEq

/-- Modelled from the spec: the on-chain Root of Trust registry is out of
scope of the repository (it is the remote oracle of spec section 3,
"Trust registration": a keyed set mapping an (issuer, schema) pair to a
trusted boolean).  The state assigns each key pair its stored boolean;
absence of any registration is `false`. -/
def RotState := String → String → Bool

/-- Modelled from the spec: the registry state before any registration;
every pair is unregistered, hence untrusted. -/
def rotEmpty : RotState := fun _ _ => false

/-- Modelled from the spec: the effect of a confirmed `registerIssuer`
transaction on the registry, as received on-chain (keys are the raw
strings sent as contract parameters): the given pair becomes trusted,
every other pair is unchanged. -/
def rotRegisterIssuer (st : RotState) (issuer schema : String) : RotState :=
  fun i s => if i = issuer && s = schema then true else st i s

/-- Modelled from the spec: the effect of a confirmed `deactivateIssuer`
transaction on the registry: the given pair becomes untrusted, every
other pair is unchanged. -/
def rotDeactivateIssuer (st : RotState) (issuer schema : String) : RotState :=
  fun i s => if i = issuer && s = schema then false else st i s

/-- Modelled from the spec: the `isTrusted` query returns exactly the
registry's stored boolean for the key pair. -/
def rotIsTrusted (st : RotState) (issuer schema : String) : Bool := st issuer schema

/-- The SDK-side `registerIssuer`: it sends `trimedDID issuerDID` and the
schema name as the contract parameters (rot.ts), so the registry is
updated at that key. -/
def sdkRegisterIssuer (st : RotState) (issuerDID schemaName : String) : RotState :=
  rotRegisterIssuer st (trimedDID issuerDID) schemaName

/-- The SDK-side `deactivateIssuer`, with the same parameter construction
as `registerIssuer` (rot.ts). -/
def sdkDeactivateIssuer (st : RotState) (issuerDID schemaName : String) : RotState :=
  rotDeactivateIssuer st (trimedDID issuerDID) schemaName

/-- The SDK-side `isTrusted` query, with the same parameter construction
(rot.ts): it reads the registry at `(trimedDID issuerDID, schemaName)`. -/
def sdkIsTrusted (st : RotState) (issuerDID schemaName : String) : Bool :=
  rotIsTrusted st (trimedDID issuerDID) schemaName

/-- A confirmed Root of Trust transaction issued through the SDK. -/
inductive RotOp where
  | register (issuerDID schemaName : String)
  | deactivate (issuerDID schemaName : String)
deriving Repr, DecidableEq

/-- Application of one confirmed SDK transaction to the registry. -/
def applyRotOp (st : RotState) : RotOp → RotState
  | RotOp.register issuerDID schemaName => sdkRegisterIssuer st issuerDID schemaName
  | RotOp.deactivate issuerDID schemaName => sdkDeactivateIssuer st issuerDID schemaName

/-- The registry state after a sequence of confirmed SDK transactions,
starting from the empty registry. -/
def runRotOps (ops : List RotOp) : RotState := ops.foldl applyRotOp rotEmpty

/-- Whether an operation registers the pair keyed by
`(trimedDID issuerDID, schemaName)`. -/
def registersPair (issuerDID schemaName : String) : RotOp → Prop
  | RotOp.register did sn => trimedDID did = trimedDID issuerDID ∧ sn = schemaName
  | RotOp.deactivate _ _ => False

instance (issuerDID schemaName : String) (op : RotOp) :
    Decidable (registersPair issuerDID schemaName op) := by
  cases op with
  | register did sn => exact inferInstanceAs (Decidable (_ ∧ _))
  | deactivate did sn => exact inferInstanceAs (Decidable False)

/-- The attribute key list of a claim, in the order the claim carries
them. -/
def claimKeys (c : Claim) : List String := c.attributes.map (fun p => p.1)

/-- Modelled from the spec: `validateAttributes` of the schema validator
(issuer/verifier sources, not among the given files; spec section 4.4).
It fails when the claim references a schema name different from
`schema.name`, and otherwise passes exactly when the claim's attribute
key set equals the schema's attribute set: every schema attribute occurs
among the claim's keys and every claim key occurs among the schema's
attributes (order irrelevant, no partial claims). -/
def validateAttributes (c : Claim) (s : Schema) : Bool :=
  c.schema == s.name &&
  s.attributes.all (fun a => (claimKeys c).contains a) &&
  (claimKeys c).all (fun k => s.attributes.contains k)

/-- Modelled from the spec: the validity-window check of the lifecycle
validator (spec section 4.5, step 3(d)): the current time must lie in
`[validFrom, validTo]`; a missing bound is unbounded on that side. -/
def dateRangeOk (now : Int) (c : Claim) : Bool :=
  (match c.validFrom with
   | none => true
   | some f => decide (f ≤ now)) &&
  (match c.validTo with
   | none => true
   | some t => decide (now ≤ t))

/-- Modelled from the spec: `validateClaim`, the lifecycle validator
(spec section 4.5, step 3), is not among the given sources.  It is
`true` exactly when the signature verifies, the schema attributes
validate, the on-chain `isValidClaim` oracle (a function of the claim id
alone, so it cannot see the dates) answers `true`, and the validity
window contains the current time; the date-range check is the local
conjunct `dateRangeOk`. -/
def validateClaim (sigOk schemaOk : Bool) (oracle : String → Bool)
    (now : Int) (c : Claim) : Bool :=
  sigOk && schemaOk && oracle c.id && dateRangeOk now c

/-- Modelled from the spec: the signature engine (spec section 4.3) is
provided by the external neon-js wallet library, outside this
repository.  It is modelled as a concrete byte-wise scheme over natural
number digests for which the spec's two testable properties are provable:
the public key determined by a private key. -/
def pubKeyOf (privateKey : Nat) : Nat := privateKey

/-- Modelled from the spec: `sign(digest, privateKey)`, byte-wise
combination of the digest with the key. -/
def signDigest (digest : List Nat) (privateKey : Nat) : List Nat :=
  digest.map (fun b => b ^^^ privateKey)

/-- Modelled from the spec: `verify(digest, signature, publicKey)`;
a pure boolean function of its three arguments that recomputes the
digest from the signature and compares. -/
def verifySig (digest signature : List Nat) (publicKey : Nat) : Bool :=
  signature.map (fun b => b ^^^ publicKey) == digest

/-- The canonical order on serialized attribute pairs: lexicographic by
attribute name, ties broken by value (the fixed, documented canonical
ordering the spec requires of the canonicalizer, spec section 4.2). -/
def attrLe (a b : String × String) : Prop :=
  a.1 < b.1 ∨ (a.1 = b.1 ∧ a.2 ≤ b.2)

instance : DecidableRel attrLe := fun a b =>
  inferInstanceAs (Decidable (a.1 < b.1 ∨ (a.1 = b.1 ∧ a.2 ≤ b.2)))

instance : IsTotal (String × String) attrLe where
  total a b := by
    rcases lt_trichotomy a.1 b.1 with h | h | h
    · exact Or.inl (Or.inl h)
    · rcases le_total a.2 b.2 with h2 | h2
      · exact Or.inl (Or.inr ⟨h, h2⟩)
      · exact Or.inr (Or.inr ⟨h.symm, h2⟩)
    · exact Or.inr (Or.inl h)

instance : IsTrans (String × String) attrLe where
  trans a b c hab hbc := by
    rcases hab with h1 | ⟨h1, h1v⟩
    · rcases hbc with h2 | ⟨h2, h2v⟩
      · exact Or.inl (lt_trans h1 h2)
      · exact Or.inl (h2 ▸ h1)
    · rcases hbc with h2 | ⟨h2, h2v⟩
      · exact Or.inl (h1 ▸ h2)
      · exact Or.inr ⟨h1.trans h2, le_trans h1v h2v⟩

instance : IsAntisymm (String × String) attrLe where
  antisymm a b hab hba := by
    rcases hab with h1 | ⟨h1, h1v⟩
    · rcases hba with h2 | ⟨h2, h2v⟩
      · exact absurd h2 (lt_asymm h1)
      · exact absurd h1 (h2 ▸ lt_irrefl b.1)
    · rcases hba with h2 | ⟨h2, h2v⟩
      · exact absurd h2 (h1 ▸ lt_irrefl a.1)
      · exact Prod.ext h1 (le_antisymm h1v h2v)

/-- Modelled from the spec: the canonical attribute serialization order
of the canonicalizer (spec section 4.2) — the attribute pairs sorted into
the canonical order. -/
def canonicalAttrs (attrs : List (String × String)) : List (String × String) :=
  List.insertionSort attrLe attrs

/-- Modelled from the spec: `canonicalize(claim)` — a deterministic
serialization of the signable fields `id`, `ownerDID`, `schema` and the
attributes in canonical key order; `signature`, `tx` and transport-only
fields are excluded. -/
def canonicalize (c : Claim) : String :=
  c.id ++ "|" ++ c.ownerDID ++ "|" ++ c.schema ++ "|" ++
  String.join ((canonicalAttrs c.attributes).map (fun p => p.1 ++ "=" ++ p.2 ++ ";"))

/-- Modelled from the spec: `hash(claim)` — a deterministic digest of
`canonicalize(claim)` (the cryptographic primitive itself lives in the
external ledger library; any function of the canonical bytes witnesses
the determinism property). -/
def hashClaim (c : Claim) : Nat :=
  (canonicalize c).foldr (fun ch h => (h * 131 + ch.toNat) % 18446744073709551616) 5381

/-- A characters-of-append helper: dropping the first nine characters of
a string beginning with the nine-character literal leaves exactly the
rest. -/
theorem trimedDID_append (t : String) : trimedDID ("did:neoid" ++ t) = t := by
  apply String.ext
  rw [trimedDID, String.data_drop, String.data_append]
  exact List.drop_left' (by decide)

/-- C1 counterexample: for the issuer DID
did:neoid:priv:0d2c6f2b036ab1da64030a0554fb2a6aa24be730, `isTrusted` does
not send the identity-address portion as the first contract parameter:
`trimedDID` removes only nine characters, not the full
did:(method):(network): fixed prefix. -/
theorem isTrustedParams_not_address_portion :
    isTrustedParams "did:neoid:priv:0d2c6f2b036ab1da64030a0554fb2a6aa24be730" "TestSchema" ≠
      ["0d2c6f2b036ab1da64030a0554fb2a6aa24be730", "TestSchema"] := by
  decide

/-- C1 (amended): for every issuer DID of the form
did:neoid:(network):(address), all five trust-resolution operations send
as the on-chain issuer parameter the DID with exactly its first nine
characters (the literal did:neoid, without the following colon) removed,
i.e. the string :(network):(address) — the network segment and a leading
colon are kept. -/
theorem trustOperations_send_dropNine (network addr schemaName : String) :
    isTrustedParams ("did:neoid:" ++ network ++ ":" ++ addr) schemaName =
      [":" ++ network ++ ":" ++ addr, schemaName] ∧
    registerIssuerParams ("did:neoid:" ++ network ++ ":" ++ addr) schemaName =
      [":" ++ network ++ ":" ++ addr, schemaName] ∧
    deactivateIssuerParams ("did:neoid:" ++ network ++ ":" ++ addr) schemaName =
      [":" ++ network ++ ":" ++ addr, schemaName] ∧
    registerIssuerTestParams ("did:neoid:" ++ network ++ ":" ++ addr) schemaName =
      [":" ++ network ++ ":" ++ addr, schemaName] ∧
    deactivateIssuerTestParams ("did:neoid:" ++ network ++ ":" ++ addr) schemaName =
      [":" ++ network ++ ":" ++ addr, schemaName] := by
  have hsplit : ("did:neoid:" ++ network ++ ":" ++ addr : String) =
      "did:neoid" ++ (":" ++ network ++ ":" ++ addr) := by
    apply String.ext
    simp [String.data_append]
  have h : trimedDID ("did:neoid:" ++ network ++ ":" ++ addr) =
      ":" ++ network ++ ":" ++ addr := by
    rw [hsplit, trimedDID_append]
  exact ⟨by rw [isTrustedParams, h], by rw [registerIssuerParams, h],
    by rw [deactivateIssuerParams, h], by rw [registerIssuerTestParams, h],
    by rw [deactivateIssuerTestParams, h]⟩

/-- C3: on an invocation response with no result stack (the remote call
itself failed, exception "remote fault"), the string-array read path
(`getIssuerPublicKeys` / `getAdminList`) crashes with an untyped
JavaScript TypeError — `seraphResult.result.value.length` is read before
the success check while `result` is undefined — instead of raising the
SeraphIDError that the string read path raises on the very same
response. -/
theorem getStringArrayFromOperation_no_stack_jsError :
    getStringArrayFromOperation { stack := none, exception := some "remote fault" } =
      Outcome.jsError ∧
    getStringFromOperation { stack := none, exception := some "remote fault" } =
      Outcome.seraphError (some "remote fault")
        { stack := none, exception := some "remote fault" } :=
  ⟨rfl, rfl⟩

/-- C8: the SDK's issuer contract client references the enum member
IssuerOperation.GetPublicKeys (and the three recovery members), but the
IssuerOperation enum of common.ts defines no such members, so the
operation-name string for these invocations does not exist. -/
theorem issuerOperation_GetPublicKeys_not_defined :
    "GetPublicKeys" ∈ referencedIssuerOperationMembers ∧
    "GetPublicKeys" ∉ definedIssuerOperationMembers ∧
    "SetRecovery" ∈ referencedIssuerOperationMembers ∧
    "SetRecovery" ∉ definedIssuerOperationMembers ∧
    "AddKeyByRecovery" ∉ definedIssuerOperationMembers ∧
    "RemoveKeyByRecovery" ∉ definedIssuerOperationMembers ∧
    referencedRootOfTrustOperationMembers = definedRootOfTrustOperationMembers := by
  decide

/-- C9: when the invocation response for `isValidClaim` has a non-null
stack with exactly one element, the raw `value` field of that element is
returned verbatim — no `extractResult`, no ByteString decoding, no type
check and no integer parsing. -/
theorem isValidClaim_singleton_stack_verbatim (item : StackItem) (exc : Option String) :
    isValidClaim { stack := some [item], exception := exc } = Outcome.ok item.2 := by
  rfl

/-- C10: `extractResult` throws an untyped runtime error exactly on an
empty stack array (reading `.type` of the undefined first element); on an
absent stack it returns the failure-tagged IResult, and on any non-empty
stack it returns a success-tagged IResult. -/
theorem extractResult_total_except_empty_stack :
    (∀ exc, extractResult { stack := some [], exception := exc } = Except.error ()) ∧
    (∀ exc, extractResult { stack := none, exception := exc } =
      Except.ok { success := false, error := exc, result := none }) ∧
    (∀ item rest exc, ∃ r, extractResult { stack := some (item :: rest), exception := exc } =
      Except.ok r ∧ r.success = true) :=
  ⟨fun _ => rfl, fun _ => rfl, fun _ _ _ => ⟨_, rfl, rfl⟩⟩

/-- A fold invariant: a sequence of confirmed transactions none of which
registers the pair keyed by (trimedDID issuerDID, schemaName) leaves an
untrusted pair untrusted. -/
theorem rot_no_register_preserves (issuerDID schemaName : String) :
    ∀ (ops : List RotOp) (st : RotState),
      st (trimedDID issuerDID) schemaName = false →
      (∀ op ∈ ops, ¬ registersPair issuerDID schemaName op) →
      (ops.foldl applyRotOp st) (trimedDID issuerDID) schemaName = false := by
  intro ops
  induction ops with
  | nil => intro st h _; exact h
  | cons op rest ih =>
    intro st h hops
    rw [List.foldl_cons]
    apply ih
    · cases op with
      | register did sn =>
        have hnr := hops (RotOp.register did sn) (List.mem_cons_self _ _)
        simp only [registersPair] at hnr
        simp only [applyRotOp, sdkRegisterIssuer, rotRegisterIssuer]
        by_cases h1 : trimedDID issuerDID = trimedDID did
        · by_cases h2 : schemaName = sn
          · exact absurd ⟨h1.symm, h2.symm⟩ hnr
          · simp [h2, h]
        · simp [h1, h]
      | deactivate did sn =>
        simp only [applyRotOp, sdkDeactivateIssuer, rotDeactivateIssuer]
        by_cases h1 : trimedDID issuerDID = trimedDID did
        · by_cases h2 : schemaName = sn
          · simp [h1, h2]
          · simp [h2, h]
        · simp [h1, h]
    · intro o ho
      exact hops o (List.mem_cons_of_mem _ ho)

/-- C4: the `isTrusted` query returns exactly the registry's stored
boolean at each state of the register/deactivate step relation: `false`
for a pair never registered by this Root of Trust along any history of
confirmed transactions, `true` immediately after a confirmed
`registerIssuer` of the pair, and `false` again immediately after a
confirmed `deactivateIssuer` of the same pair. -/
theorem isTrusted_registry_state (ops : List RotOp) (st : RotState)
    (issuerDID schemaName : String)
    (hnever : ∀ op ∈ ops, ¬ registersPair issuerDID schemaName op) :
    sdkIsTrusted (runRotOps ops) issuerDID schemaName = false ∧
    sdkIsTrusted (sdkRegisterIssuer st issuerDID schemaName) issuerDID schemaName = true ∧
    sdkIsTrusted (sdkDeactivateIssuer st issuerDID schemaName) issuerDID schemaName = false := by
  refine ⟨rot_no_register_preserves issuerDID schemaName ops rotEmpty rfl hnever, ?_, ?_⟩
  · simp [sdkIsTrusted, rotIsTrusted, sdkRegisterIssuer, rotRegisterIssuer]
  · simp [sdkIsTrusted, rotIsTrusted, sdkDeactivateIssuer, rotDeactivateIssuer]

/-- C4 witness: a concrete history registering only a different issuer
leaves the queried pair untrusted, registering it makes the query true,
deactivating it makes the query false. -/
theorem isTrusted_registry_state_witness :
    sdkIsTrusted (runRotOps [RotOp.register "did:neoid:priv:other" "S"])
      "did:neoid:priv:abc" "KYC" = false ∧
    sdkIsTrusted (sdkRegisterIssuer rotEmpty "did:neoid:priv:abc" "KYC")
      "did:neoid:priv:abc" "KYC" = true ∧
    sdkIsTrusted (sdkDeactivateIssuer rotEmpty "did:neoid:priv:abc" "KYC")
      "did:neoid:priv:abc" "KYC" = false :=
  isTrusted_registry_state [RotOp.register "did:neoid:priv:other" "S"] rotEmpty
    "did:neoid:priv:abc" "KYC" (by decide)

/-- C5: a claim whose validTo timestamp lies strictly in the past fails
lifecycle validation, whatever the signature check, the schema check and
the on-chain `isValidClaim` oracle (a function of the claim id only, so
it never sees the dates) report: the date-range check is the local
conjunct of the lifecycle validator. -/
theorem validateClaim_expired_validTo (sigOk schemaOk : Bool)
    (oracle : String → Bool) (now t : Int) (c : Claim)
    (hvt : c.validTo = some t) (hpast : t < now) :
    validateClaim sigOk schemaOk oracle now c = false := by
  have hB : (decide (now ≤ t)) = false := decide_eq_false (not_le.mpr hpast)
  have hdate : dateRangeOk now c = false := by
    simp [dateRangeOk, hvt, hB]
  simp [validateClaim, hdate]

/-- C5 witness: a concrete claim expired at time 100 with every other
check passing is rejected. -/
theorem validateClaim_expired_validTo_witness :
    validateClaim true true (fun _ => true) 100
      { id := "C1", ownerDID := "did:neoid:priv:abc", attributes := [],
        schema := "KYC", validTo := some 50 } = false :=
  validateClaim_expired_validTo true true (fun _ => true) 100 50
    { id := "C1", ownerDID := "did:neoid:priv:abc", attributes := [],
      schema := "KYC", validTo := some 50 } rfl (by decide)

/-- C6: for a claim referencing the schema's name, `validateAttributes`
succeeds exactly when the claim's attribute key set equals the schema's
attribute set — a missing schema attribute fails, an extra claim
attribute fails, order is irrelevant. -/
theorem validateAttributes_iff_key_sets_equal (c : Claim) (s : Schema)
    (hname : c.schema = s.name) :
    validateAttributes c s = true ↔ (claimKeys c).toFinset = s.attributes.toFinset := by
  simp only [validateAttributes, hname, beq_self_eq_true, Bool.true_and, Bool.and_eq_true,
    List.all_eq_true, List.elem_eq_mem, decide_eq_true_eq]
  constructor
  · rintro ⟨h1, h2⟩
    apply Finset.ext
    intro x
    simp only [List.mem_toFinset]
    exact ⟨fun hx => h2 x hx, fun hx => h1 x hx⟩
  · intro hEq
    constructor
    · intro a ha
      have hx := Finset.ext_iff.mp hEq a
      simp only [List.mem_toFinset] at hx
      exact hx.mpr ha
    · intro k hk
      have hx := Finset.ext_iff.mp hEq k
      simp only [List.mem_toFinset] at hx
      exact hx.mp hk

/-- C6 witness: a concrete claim whose attributes are a reordering of
the schema's attribute list validates. -/
theorem validateAttributes_iff_key_sets_equal_witness :
    validateAttributes
      { id := "C1", ownerDID := "did:neoid:priv:abc",
        attributes := [("lastName", "Doe"), ("firstName", "John"), ("age", "26")],
        schema := "KYC" }
      { attributes := ["firstName", "lastName", "age"], name := "KYC",
        revokable := true } = true :=
  (validateAttributes_iff_key_sets_equal _ _ rfl).mpr (by decide)

/-- C7: verifying a signature freshly produced over a digest with the
matching key pair succeeds, and overwriting any single byte of that
signature with a different value makes verification fail. -/
theorem sign_verify_roundtrip_flip (digest : List Nat) (sk i b : Nat)
    (hi : i < (signDigest digest sk).length)
    (hb : b ≠ (signDigest digest sk).get ⟨i, hi⟩) :
    verifySig digest (signDigest digest sk) (pubKeyOf sk) = true ∧
    verifySig digest ((signDigest digest sk).set i b) (pubKeyOf sk) = false := by
  have hround : (signDigest digest sk).map (fun x => x ^^^ sk) = digest := by
    rw [signDigest, List.map_map]
    exact List.map_id'' (fun x => Nat.xor_cancel_right sk x) digest
  have hlen : i < digest.length := by simpa [signDigest] using hi
  constructor
  · simp only [verifySig, pubKeyOf]
    rw [hround]
    exact beq_self_eq_true digest
  · simp only [verifySig, pubKeyOf]
    rw [List.map_set, hround, beq_eq_false_iff_ne]
    intro heq
    have h1 : (digest.set i (b ^^^ sk))[i]? = some (b ^^^ sk) :=
      List.getElem?_set_self hlen
    have h2 : digest[i]? = some digest[i] := List.getElem?_eq_getElem hlen
    rw [heq, h2] at h1
    have hbi : digest[i] = b ^^^ sk := Option.some.inj h1
    have hsig : (signDigest digest sk).get ⟨i, hi⟩ = digest[i] ^^^ sk := by
      simp [signDigest, List.get_eq_getElem]
    apply hb
    calc b = (b ^^^ sk) ^^^ sk := (Nat.xor_cancel_right sk b).symm
      _ = digest[i] ^^^ sk := by rw [hbi]
      _ = (signDigest digest sk).get ⟨i, hi⟩ := hsig.symm

/-- C7 witness: a concrete digest and key pair round-trips, and
overwriting the first signature byte with a different value fails. -/
theorem sign_verify_roundtrip_flip_witness :
    verifySig [10, 20, 30] (signDigest [10, 20, 30] 7) (pubKeyOf 7) = true ∧
    verifySig [10, 20, 30] ((signDigest [10, 20, 30] 7).set 0 5) (pubKeyOf 7) = false :=
  sign_verify_roundtrip_flip [10, 20, 30] 7 0 5 (by decide) (by decide)

/-- C2: two claims with the same id, ownerDID and schema whose attribute
lists are permutations of each other hash identically: the canonicalizer
fixes one canonical attribute order, so attribute ordering never affects
the digest. -/
theorem hashClaim_attr_order_irrelevant (c1 c2 : Claim)
    (hid : c1.id = c2.id) (howner : c1.ownerDID = c2.ownerDID)
    (hschema : c1.schema = c2.schema) (hperm : c1.attributes.Perm c2.attributes) :
    hashClaim c1 = hashClaim c2 := by
  have hsort : canonicalAttrs c1.attributes = canonicalAttrs c2.attributes := by
    unfold canonicalAttrs
    exact List.eq_of_perm_of_sorted
      ((List.perm_insertionSort attrLe c1.attributes).trans
        (hperm.trans (List.perm_insertionSort attrLe c2.attributes).symm))
      (List.sorted_insertionSort attrLe c1.attributes)
      (List.sorted_insertionSort attrLe c2.attributes)
  unfold hashClaim canonicalize
  rw [hid, howner, hschema, hsort]

/-- C2 witness: two concrete claims differing only in attribute order
have equal hashes. -/
theorem hashClaim_attr_order_irrelevant_witness :
    hashClaim
      { id := "C1", ownerDID := "did:neoid:priv:abc",
        attributes := [("firstName", "John"), ("lastName", "Doe"), ("age", "26")],
        schema := "KYC" } =
    hashClaim
      { id := "C1", ownerDID := "did:neoid:priv:abc",
        attributes := [("age", "26"), ("firstName", "John"), ("lastName", "Doe")],
        schema := "KYC" } :=
  hashClaim_attr_order_irrelevant _ _ rfl rfl rfl (by decide)

end SeraphID
